import Mathlib

/-!
Shallow embedding of the ISKvsAF cost-basis ledger core
(`src/investments/investment.py` and `src/investments/portfolio.py`).

Monetary amounts and quantities are embedded as exact rationals (`ℚ`);
the Python source uses floats, and the spec directs tolerance-based
reasoning, so the exact-rational model captures the intended arithmetic.

Python methods mutate objects in place and signal failure by raising;
mutations performed before a raise survive the failed call.  The
embedding therefore threads state explicitly: each ledger entry point
returns `Option LedgerError × Portfolio`, where the first component is
`some e` when the Python code would raise (with `e` the error kind the
spec assigns to that raise site, plus `divisionByZero` for Python's
`ZeroDivisionError`), and the second component is the state of the
`Portfolio` object after the call, raised or not.
-/

set_option autoImplicit false

/-- Error kinds of the ledger core.  The first five name the spec's
error vocabulary for the distinct `ValueError` raise sites of the
source; `divisionByZero` models Python's `ZeroDivisionError`, which
escapes `handle_conversion` when the source position's average price
is zero. -/
inductive LedgerError where
  | insufficientHoldings
  | unknownAction
  | missingConversionTarget
  | noHoldings
  | divisionByZero
  deriving DecidableEq

/-- State of `Investment.__init__`: quantity held, accumulated cost,
and the log of realized profit/loss events. -/
structure Investment where
  quantity : ℚ
  total_cost : ℚ
  realized_profit_loss : List ℚ
  deriving DecidableEq

/-- A fresh `Investment()`. -/
def Investment.new : Investment :=
  { quantity := 0, total_cost := 0, realized_profit_loss := [] }

/-- `Investment.avg_price`: `total_cost / quantity`, or 0 when
`quantity == 0`. -/
def Investment.avg_price (inv : Investment) : ℚ :=
  if inv.quantity = 0 then 0 else inv.total_cost / inv.quantity

/-- `Investment.buy`. -/
def Investment.buy (inv : Investment) (price quantity fee : ℚ) : Investment :=
  { inv with
    total_cost := inv.total_cost + (price * quantity + fee)
    quantity := inv.quantity + quantity }

/-- `Investment.sell`: fails when selling more than held, otherwise
removes cost basis at the pre-sale average price, records the realized
profit/loss and returns it together with the updated state. -/
def Investment.sell (inv : Investment) (price quantity fee : ℚ) :
    Except LedgerError (ℚ × Investment) :=
  if quantity > inv.quantity then
    .error .insufficientHoldings
  else
    let sale_proceeds := price * quantity - fee
    let overhead_amount := inv.avg_price * quantity
    let profit_loss := sale_proceeds - overhead_amount
    .ok (profit_loss,
      { quantity := inv.quantity - quantity
        total_cost := inv.total_cost - overhead_amount
        realized_profit_loss := inv.realized_profit_loss ++ [profit_loss] })

/-- `Investment.total_realized_profit_loss`. -/
def Investment.total_realized_profit_loss (inv : Investment) : ℚ :=
  inv.realized_profit_loss.sum

/-- One record of `Portfolio.transactions` (the audit trail).  The two
leg records appended by `handle_conversion` carry no `to_asset` key in
the Python dict; this is modelled as `to_asset = none`. -/
structure TxRecord where
  timestamp : Option ℤ
  action : String
  asset : String
  to_asset : Option String
  price : ℚ
  quantity : ℚ
  fee : ℚ
  transaction_currency : String
  deriving DecidableEq

/-- Ordered association list standing for the insertion-ordered Python
dict `Portfolio.investments`. -/
def lookupInv : List (String × Investment) → String → Option Investment
  | [], _ => none
  | (k, v) :: rest, a => if k = a then some v else lookupInv rest a

/-- Dict assignment `investments[a] = v`: replaces in place when the
key exists, appends otherwise. -/
def updateInv : List (String × Investment) → String → Investment →
    List (String × Investment)
  | [], a, v => [(a, v)]
  | (k, w) :: rest, a, v =>
      if k = a then (k, v) :: rest else (k, w) :: updateInv rest a v

/-- State of `Portfolio.__init__`. -/
structure Portfolio where
  investments : List (String × Investment)
  base_currency : String
  transactions : List TxRecord
  deriving DecidableEq

/-- A fresh `Portfolio(base_currency)`. -/
def Portfolio.new (base_currency : String) : Portfolio :=
  { investments := [], base_currency := base_currency, transactions := [] }

/-- `Portfolio.handle_conversion`: sell enough of `from_asset` (valued
at its own average price) to cover the acquisition cost of `quantity`
units of `to_asset` at `price_in_base` plus `fee_in_base`, buy the
destination leg fee-free, and append the two leg records.  Python
raises `ZeroDivisionError` at `total_cost / avg_price` when the
average price is zero; every raise leaves the state as it was on
entry to this method. -/
def Portfolio.handle_conversion (p : Portfolio)
    (from_asset to_asset : String)
    (quantity price_in_base fee_in_base : ℚ) (timestamp : Option ℤ) :
    Option LedgerError × Portfolio :=
  match lookupInv p.investments from_asset with
  | none => (some .noHoldings, p)
  | some from_investment =>
    let total_cost := price_in_base * quantity + fee_in_base
    if from_investment.avg_price = 0 then
      (some .divisionByZero, p)
    else
      let quantity_to_sell := total_cost / from_investment.avg_price
      if quantity_to_sell > from_investment.quantity then
        (some .insufficientHoldings, p)
      else
        match from_investment.sell from_investment.avg_price quantity_to_sell fee_in_base with
        | .error e => (some e, p)
        | .ok (_profit_loss_sell, from_inv2) =>
          let p2 : Portfolio :=
            { p with investments := updateInv p.investments from_asset from_inv2 }
          let to_investment := (lookupInv p2.investments to_asset).getD Investment.new
          let p3 : Portfolio :=
            { p2 with investments :=
                updateInv p2.investments to_asset (to_investment.buy price_in_base quantity 0) }
          let sell_price := ((lookupInv p3.investments from_asset).getD Investment.new).avg_price
          let sell_rec : TxRecord :=
            { timestamp := timestamp, action := "sell", asset := from_asset
              to_asset := none, price := sell_price, quantity := quantity_to_sell
              fee := fee_in_base, transaction_currency := p.base_currency }
          let buy_rec : TxRecord :=
            { timestamp := timestamp, action := "buy", asset := to_asset
              to_asset := none, price := price_in_base, quantity := quantity
              fee := 0, transaction_currency := p.base_currency }
          (none, { p3 with transactions := p3.transactions ++ [sell_rec, buy_rec] })

/-- `Portfolio.add_transaction`, the single mutation entry point.  The
get-or-create of the asset's `Investment` happens before the action is
dispatched, exactly as in the source; the generic transaction record is
appended only when no exception was raised.  Python treats `None` and
the empty string as a missing `to_asset`. -/
def Portfolio.add_transaction (p : Portfolio) (action asset : String)
    (price quantity fee : ℚ) (transaction_currency : String)
    (timestamp : Option ℤ) (to_asset : Option String) :
    Option LedgerError × Portfolio :=
  let price_in_base := price
  let fee_in_base := fee
  let investment := (lookupInv p.investments asset).getD Investment.new
  let p1 : Portfolio := { p with investments := updateInv p.investments asset investment }
  let record : TxRecord :=
    { timestamp := timestamp, action := action, asset := asset, to_asset := to_asset
      price := price_in_base, quantity := quantity, fee := fee_in_base
      transaction_currency := transaction_currency }
  if action = "buy" then
    let p2 : Portfolio :=
      { p1 with investments :=
          updateInv p1.investments asset (investment.buy price_in_base quantity fee_in_base) }
    (none, { p2 with transactions := p2.transactions ++ [record] })
  else if action = "sell" then
    match investment.sell price_in_base quantity fee_in_base with
    | .error e => (some e, p1)
    | .ok (_profit_loss, inv2) =>
      let p2 : Portfolio := { p1 with investments := updateInv p1.investments asset inv2 }
      (none, { p2 with transactions := p2.transactions ++ [record] })
  else if action = "deposit" then
    let p2 : Portfolio :=
      { p1 with investments := updateInv p1.investments asset (investment.buy 0 quantity 0) }
    (none, { p2 with transactions := p2.transactions ++ [record] })
  else if action = "convert" then
    match to_asset with
    | none => (some .missingConversionTarget, p1)
    | some ta =>
      if ta = "" then (some .missingConversionTarget, p1)
      else
        match p1.handle_conversion asset ta quantity price_in_base fee_in_base timestamp with
        | (some e, p2) => (some e, p2)
        | (none, p2) => (none, { p2 with transactions := p2.transactions ++ [record] })
  else
    (some .unknownAction, p1)

/-- `Portfolio.get_investment`. -/
def Portfolio.get_investment (p : Portfolio) (asset : String) : Option Investment :=
  lookupInv p.investments asset

/-- `Portfolio.calculate_total_profit_loss`. -/
def Portfolio.calculate_total_profit_loss (p : Portfolio) : ℚ :=
  (p.investments.map (fun q => q.2.total_realized_profit_loss)).sum

/-- One normalized input to `add_transaction`, used to talk about
sequences of ledger calls. -/
structure TxInput where
  action : String
  asset : String
  price : ℚ
  quantity : ℚ
  fee : ℚ
  transaction_currency : String
  timestamp : Option ℤ
  to_asset : Option String
  deriving DecidableEq

/-- Apply one `TxInput` through `add_transaction`. -/
def Portfolio.applyTx (p : Portfolio) (t : TxInput) : Option LedgerError × Portfolio :=
  p.add_transaction t.action t.asset t.price t.quantity t.fee
    t.transaction_currency t.timestamp t.to_asset

/-- Apply a sequence of inputs, keeping the post-call state of failing
calls too (as the caller's `Portfolio` object does). -/
def Portfolio.applyAll (p : Portfolio) : List TxInput → Portfolio
  | [] => p
  | t :: ts => ((p.applyTx t).2).applyAll ts

/-- The spec's input preconditions on a single transaction request:
strictly positive quantity, non-negative price and fee. -/
def validTx (t : TxInput) : Prop :=
  0 < t.quantity ∧ 0 ≤ t.price ∧ 0 ≤ t.fee

instance : DecidablePred validTx := fun t => by
  unfold validTx; infer_instance

/-- Auxiliary invariant on one position: non-negative quantity and
non-negative accumulated cost. -/
def Investment.Nonneg (inv : Investment) : Prop :=
  0 ≤ inv.quantity ∧ 0 ≤ inv.total_cost

/-- Auxiliary invariant on a portfolio: every stored position is
non-negative. -/
def Portfolio.Nonneg (p : Portfolio) : Prop :=
  ∀ a inv, lookupInv p.investments a = some inv → inv.Nonneg

-- Sanity checks against the source's own unit tests (TestInvestment).

example : (Investment.new.buy 100 10 5).quantity = 10 := by
  norm_num [Investment.buy, Investment.new]

example : (Investment.new.buy 100 10 5).total_cost = 1005 := by
  norm_num [Investment.buy, Investment.new]

example : ((Investment.new.buy 100 10 5).buy 110 5 2).total_cost = 1557 := by
  norm_num [Investment.buy, Investment.new]

example : ((Investment.new.buy 100 10 5).buy 110 5 2).avg_price = 1038 / 10 := by
  norm_num [Investment.buy, Investment.new, Investment.avg_price]

example :
    ((Investment.new.buy 100 10 5).buy 110 5 2).sell 120 8 3 =
      .ok (633 / 5,
        { quantity := 7, total_cost := 3633 / 5, realized_profit_loss := [633 / 5] }) := by
  norm_num [Investment.buy, Investment.new, Investment.sell, Investment.avg_price]

/-! ### Association-list lemmas -/

theorem lookupInv_updateInv (l : List (String × Investment)) (a b : String) (v : Investment) :
    lookupInv (updateInv l a v) b = if a = b then some v else lookupInv l b := by
  induction l with
  | nil =>
    by_cases h : a = b <;> simp [updateInv, lookupInv, h]
  | cons hd tl ih =>
    obtain ⟨k, w⟩ := hd
    by_cases hk : k = a
    · subst hk
      by_cases hb : k = b <;> simp [updateInv, lookupInv, hb]
    · by_cases hb : k = b
      · have hab : ¬ a = b := fun h => hk (hb.trans h.symm)
        have hba : ¬ b = a := fun h => hk (hb.trans h)
        simp [updateInv, lookupInv, hk, hb, hab, hba]
      · simp [updateInv, lookupInv, hk, hb, ih]

theorem updateInv_lookup_self (l : List (String × Investment)) (a : String) (v : Investment)
    (h : lookupInv l a = some v) : updateInv l a v = l := by
  induction l with
  | nil => simp [lookupInv] at h
  | cons hd tl ih =>
    obtain ⟨k, w⟩ := hd
    by_cases hk : k = a
    · subst hk
      simp [lookupInv] at h
      simp [updateInv, h]
    · simp [lookupInv, hk] at h
      simp [updateInv, hk, ih h]

theorem updateInv_updateInv (l : List (String × Investment)) (a : String) (v w : Investment) :
    updateInv (updateInv l a v) a w = updateInv l a w := by
  induction l with
  | nil => simp [updateInv]
  | cons hd tl ih =>
    obtain ⟨k, z⟩ := hd
    by_cases hk : k = a
    · subst hk; simp [updateInv]
    · simp [updateInv, hk, ih]

/-! ### Error paths leave the state on entry -/

theorem handle_conversion_error_state (p : Portfolio) (fa ta : String)
    (q pr fe : ℚ) (ts : Option ℤ) (e : LedgerError)
    (h : (p.handle_conversion fa ta q pr fe ts).1 = some e) :
    (p.handle_conversion fa ta q pr fe ts).2 = p := by
  rcases hl : lookupInv p.investments fa with _ | fi
  · simp [Portfolio.handle_conversion, hl]
  · by_cases ha : fi.avg_price = 0
    · simp [Portfolio.handle_conversion, hl, ha]
    · by_cases hq : (pr * q + fe) / fi.avg_price > fi.quantity
      · simp [Portfolio.handle_conversion, hl, ha, hq]
      · exfalso
        simp [Portfolio.handle_conversion, hl, ha, hq, Investment.sell] at h

theorem add_transaction_error_state (p : Portfolio) (action asset : String)
    (price quantity fee : ℚ) (tc : String) (ts : Option ℤ) (toa : Option String)
    (e : LedgerError)
    (h : (p.add_transaction action asset price quantity fee tc ts toa).1 = some e) :
    (p.add_transaction action asset price quantity fee tc ts toa).2 =
      { p with investments :=
          updateInv p.investments asset ((lookupInv p.investments asset).getD Investment.new) } := by
  by_cases hb : action = "buy"
  · exfalso; simp [Portfolio.add_transaction, hb] at h
  · by_cases hs : action = "sell"
    · rcases hsell : ((lookupInv p.investments asset).getD Investment.new).sell price quantity fee
        with e2 | pr2
      · simp [Portfolio.add_transaction, hb, hs, hsell]
      · exfalso; simp [Portfolio.add_transaction, hb, hs, hsell] at h
    · by_cases hd : action = "deposit"
      · exfalso; simp [Portfolio.add_transaction, hb, hs, hd] at h
      · by_cases hc : action = "convert"
        · rcases toa with _ | ta
          · simp [Portfolio.add_transaction, hb, hs, hd, hc]
          · by_cases hta : ta = ""
            · simp [Portfolio.add_transaction, hb, hs, hd, hc, hta]
            · rcases hcy : ({ p with investments := updateInv p.investments asset ((lookupInv p.investments asset).getD Investment.new) } : Portfolio).handle_conversion asset ta quantity price fee ts with ⟨oe, p2⟩
              rcases oe with _ | e2
              · exfalso
                simp [Portfolio.add_transaction, hb, hs, hd, hc, hta, hcy] at h
              · have h2 := handle_conversion_error_state
                  ({ p with investments := updateInv p.investments asset ((lookupInv p.investments asset).getD Investment.new) } : Portfolio)
                  asset ta quantity price fee ts e2 (by rw [hcy])
                rw [hcy] at h2
                simp [Portfolio.add_transaction, hb, hs, hd, hc, hta, hcy]
                exact h2
        · simp [Portfolio.add_transaction, hb, hs, hd, hc]

/-! ### C1 -/

/-- C1 (amended): a failing `add_transaction` call appends nothing to
the audit trail, leaves every other asset's Position exactly as it
was, and leaves the transacted asset's Position with its exact prior
value — except that when that asset had no Position at all before the
call, the call has created a fresh empty Position for it (quantity 0,
total cost 0, no realized events). -/
theorem failed_apply_keeps_state (p : Portfolio) (action asset : String)
    (price quantity fee : ℚ) (tc : String) (ts : Option ℤ) (toa : Option String)
    (e : LedgerError)
    (h : (p.add_transaction action asset price quantity fee tc ts toa).1 = some e) :
    (p.add_transaction action asset price quantity fee tc ts toa).2.transactions
        = p.transactions
    ∧ (∀ b, b ≠ asset →
        lookupInv (p.add_transaction action asset price quantity fee tc ts toa).2.investments b
          = lookupInv p.investments b)
    ∧ lookupInv (p.add_transaction action asset price quantity fee tc ts toa).2.investments asset
        = some ((lookupInv p.investments asset).getD Investment.new) := by
  have h2 := add_transaction_error_state p action asset price quantity fee tc ts toa e h
  rw [h2]
  refine ⟨rfl, ?_, ?_⟩
  · intro b hb
    rw [lookupInv_updateInv, if_neg (fun hh => hb hh.symm)]
  · rw [lookupInv_updateInv, if_pos rfl]

/-- C1 witness: a concrete failing call, with the conclusion of
`failed_apply_keeps_state` instantiated at it. -/
theorem failed_apply_keeps_state_witness :
    ((Portfolio.new "SEK").add_transaction "sell" "BTC" 100 1 0 "SEK" none none).1
        = some LedgerError.insufficientHoldings
    ∧ (((Portfolio.new "SEK").add_transaction "sell" "BTC" 100 1 0 "SEK" none none).2.transactions
          = (Portfolio.new "SEK").transactions
      ∧ (∀ b, b ≠ "BTC" →
          lookupInv ((Portfolio.new "SEK").add_transaction "sell" "BTC" 100 1 0 "SEK" none none).2.investments b
            = lookupInv (Portfolio.new "SEK").investments b)
      ∧ lookupInv ((Portfolio.new "SEK").add_transaction "sell" "BTC" 100 1 0 "SEK" none none).2.investments "BTC"
          = some ((lookupInv (Portfolio.new "SEK").investments "BTC").getD Investment.new)) :=
  ⟨by simp [Portfolio.add_transaction, Portfolio.new, Investment.sell, Investment.new,
      lookupInv, updateInv],
   failed_apply_keeps_state (Portfolio.new "SEK") "sell" "BTC" 100 1 0 "SEK" none none
     LedgerError.insufficientHoldings
     (by simp [Portfolio.add_transaction, Portfolio.new, Investment.sell, Investment.new,
        lookupInv, updateInv])⟩

/-- C1 counterexample: on an empty ledger, a convert with no target
fails, yet the failed call has inserted a brand-new empty Position for
the source asset — the set of assets holding Positions is not left
exactly as it was, refuting the claim as stated. -/
theorem failed_apply_mutates_positions_cex :
    ((Portfolio.new "SEK").add_transaction "convert" "XRP" 10 1 0 "SEK" none none).1
        = some LedgerError.missingConversionTarget
    ∧ ((Portfolio.new "SEK").add_transaction "convert" "XRP" 10 1 0 "SEK" none none).2.investments
        = [("XRP", Investment.new)]
    ∧ (Portfolio.new "SEK").investments = [] := by
  refine ⟨?_, ?_, rfl⟩ <;>
    simp [Portfolio.add_transaction, Portfolio.new, lookupInv, updateInv]

/-! ### C5 -/

/-- C5: a successful `sell(price, qty, fee)` with `0 < qty ≤ quantity`
removes `qty` from the quantity, removes cost basis at the pre-sale
average price `total_cost / quantity` (independent of the sale price),
returns `price*qty - fee - average*qty`, and appends exactly that
value to the realized-event log. -/
theorem sell_conservation (inv : Investment) (price qty fee : ℚ)
    (h0 : 0 < qty) (h1 : qty ≤ inv.quantity) :
    inv.sell price qty fee =
      Except.ok (price * qty - fee - inv.total_cost / inv.quantity * qty,
        { quantity := inv.quantity - qty
          total_cost := inv.total_cost - inv.total_cost / inv.quantity * qty
          realized_profit_loss :=
            inv.realized_profit_loss
              ++ [price * qty - fee - inv.total_cost / inv.quantity * qty] }) := by
  have hqpos : 0 < inv.quantity := lt_of_lt_of_le h0 h1
  have havg : inv.avg_price = inv.total_cost / inv.quantity := by
    rw [Investment.avg_price, if_neg hqpos.ne']
  rw [Investment.sell, if_neg (not_lt.mpr h1)]
  simp [havg]

/-- C5 witness: the source's own `test_sell` scenario. -/
theorem sell_conservation_witness :
    0 < (8 : ℚ) ∧ (8 : ℚ) ≤ (Investment.mk 15 1557 []).quantity ∧
    (Investment.mk 15 1557 []).sell 120 8 3 =
      Except.ok ((120 : ℚ) * 8 - 3 - (Investment.mk 15 1557 []).total_cost
            / (Investment.mk 15 1557 []).quantity * 8,
        { quantity := (Investment.mk 15 1557 []).quantity - 8
          total_cost := (Investment.mk 15 1557 []).total_cost
            - (Investment.mk 15 1557 []).total_cost / (Investment.mk 15 1557 []).quantity * 8
          realized_profit_loss := (Investment.mk 15 1557 []).realized_profit_loss
            ++ [(120 : ℚ) * 8 - 3 - (Investment.mk 15 1557 []).total_cost
                / (Investment.mk 15 1557 []).quantity * 8] }) :=
  ⟨by norm_num, by norm_num,
   sell_conservation (Investment.mk 15 1557 []) 120 8 3 (by norm_num) (by norm_num)⟩

/-! ### C6 -/

/-- C6: a sell whose quantity strictly exceeds the position's current
quantity fails with `InsufficientHoldings`, and the failed call leaves
the position's quantity, total cost and realized events — and the
audit trail and every other position — unchanged. -/
theorem oversell_rejected (p : Portfolio) (asset : String)
    (price qty fee : ℚ) (tc : String) (ts : Option ℤ) (toa : Option String)
    (h : ((lookupInv p.investments asset).getD Investment.new).quantity < qty) :
    (p.add_transaction "sell" asset price qty fee tc ts toa).1
        = some LedgerError.insufficientHoldings
    ∧ (p.add_transaction "sell" asset price qty fee tc ts toa).2.transactions = p.transactions
    ∧ lookupInv (p.add_transaction "sell" asset price qty fee tc ts toa).2.investments asset
        = some ((lookupInv p.investments asset).getD Investment.new)
    ∧ ∀ b, b ≠ asset →
        lookupInv (p.add_transaction "sell" asset price qty fee tc ts toa).2.investments b
          = lookupInv p.investments b := by
  have key : p.add_transaction "sell" asset price qty fee tc ts toa
      = (some .insufficientHoldings,
         { p with investments :=
             updateInv p.investments asset ((lookupInv p.investments asset).getD Investment.new) }) := by
    simp [Portfolio.add_transaction, Investment.sell, h]
  rw [key]
  refine ⟨rfl, rfl, ?_, ?_⟩
  · rw [lookupInv_updateInv, if_pos rfl]
  · intro b hb
    rw [lookupInv_updateInv, if_neg (fun hh => hb hh.symm)]

/-- C6 witness: selling 3 units out of 2 held. -/
theorem oversell_rejected_witness :
    (Investment.mk 2 20 []).quantity < (3 : ℚ)
    ∧ ((Portfolio.mk [("ETH", Investment.mk 2 20 [])] "SEK" []).add_transaction
          "sell" "ETH" 10 3 1 "SEK" none none).1 = some LedgerError.insufficientHoldings :=
  ⟨by norm_num,
   ((oversell_rejected (Portfolio.mk [("ETH", Investment.mk 2 20 [])] "SEK" [])
      "ETH" 10 3 1 "SEK" none none (by simp [lookupInv]; norm_num)).1)⟩

/-! ### C7 -/

/-- C7 counterexample: a deposit with non-positive quantity does not
fail at all — the code performs no positivity check — so the claimed
`InvalidAction` failure does not happen; the zero-cost buy is applied
and drives the quantity negative. -/
theorem deposit_no_validation_cex :
    (Portfolio.new "SEK").add_transaction "deposit" "DOGE" 0 (-5) 0 "SEK" none none
      = (none,
         { investments :=
             [("DOGE", { quantity := -5, total_cost := 0, realized_profit_loss := [] })]
           base_currency := "SEK"
           transactions :=
             [{ timestamp := none, action := "deposit", asset := "DOGE", to_asset := none
                price := 0, quantity := -5, fee := 0, transaction_currency := "SEK" }] }) := by
  simp [Portfolio.add_transaction, Portfolio.new, Investment.buy, Investment.new,
    lookupInv, updateInv]

/-- C7 (amended): a deposit of any quantity — the code never validates
it — succeeds and is applied as a buy with price 0 and fee 0: the
position's quantity grows by the deposited amount while its total cost
and realized events are untouched. -/
theorem deposit_zero_cost_buy (p : Portfolio) (asset : String)
    (price qty fee : ℚ) (tc : String) (ts : Option ℤ) (toa : Option String) :
    (p.add_transaction "deposit" asset price qty fee tc ts toa).1 = none
    ∧ lookupInv (p.add_transaction "deposit" asset price qty fee tc ts toa).2.investments asset
        = some { quantity := ((lookupInv p.investments asset).getD Investment.new).quantity + qty
                 total_cost := ((lookupInv p.investments asset).getD Investment.new).total_cost
                 realized_profit_loss :=
                   ((lookupInv p.investments asset).getD Investment.new).realized_profit_loss } := by
  constructor
  · simp [Portfolio.add_transaction]
  · have key : (p.add_transaction "deposit" asset price qty fee tc ts toa).2.investments
        = updateInv p.investments asset
            (((lookupInv p.investments asset).getD Investment.new).buy 0 qty 0) := by
      simp [Portfolio.add_transaction, updateInv_updateInv]
    rw [key, lookupInv_updateInv, if_pos rfl]
    simp [Investment.buy]

/-! ### C3 -/

/-- C3 (code bug): a convert whose source asset has no Position does
not fail with `NoHoldings` — `add_transaction` creates an empty source
Position before dispatching, making the `NoHoldings` guard in
`handle_conversion` unreachable — and instead the conversion
computation IS reached and dies dividing the acquisition cost by the
fresh position's zero average price (Python `ZeroDivisionError`). -/
theorem convert_fresh_source_division_by_zero :
    (Portfolio.new "SEK").add_transaction "convert" "BTC" 300 2 0 "SEK" none (some "ETH")
      = (some LedgerError.divisionByZero,
         { investments := [("BTC", Investment.new)]
           base_currency := "SEK", transactions := [] }) := by
  simp [Portfolio.add_transaction, Portfolio.new, Portfolio.handle_conversion,
    Investment.avg_price, Investment.new, lookupInv, updateInv]

/-! ### C8 -/

/-- C8 (amended): a convert fails with `MissingConversionTarget` when
`to_asset` is absent or empty (Python falsiness) — but equality of
`to_asset` with the source asset is not checked.  In the missing-target
case nothing is appended to the audit trail, no existing Position is
mutated, and the only possible state change is the creation of a fresh
empty Position for the source asset. -/
theorem convert_missing_target (p : Portfolio) (asset : String)
    (price qty fee : ℚ) (tc : String) (ts : Option ℤ) (toa : Option String)
    (h : toa = none ∨ toa = some "") :
    (p.add_transaction "convert" asset price qty fee tc ts toa).1
        = some LedgerError.missingConversionTarget
    ∧ (p.add_transaction "convert" asset price qty fee tc ts toa).2.transactions = p.transactions
    ∧ lookupInv (p.add_transaction "convert" asset price qty fee tc ts toa).2.investments asset
        = some ((lookupInv p.investments asset).getD Investment.new)
    ∧ ∀ b, b ≠ asset →
        lookupInv (p.add_transaction "convert" asset price qty fee tc ts toa).2.investments b
          = lookupInv p.investments b := by
  have key : p.add_transaction "convert" asset price qty fee tc ts toa
      = (some .missingConversionTarget,
         { p with investments :=
             updateInv p.investments asset ((lookupInv p.investments asset).getD Investment.new) }) := by
    rcases h with h | h <;> subst h <;> simp [Portfolio.add_transaction]
  rw [key]
  refine ⟨rfl, rfl, ?_, ?_⟩
  · rw [lookupInv_updateInv, if_pos rfl]
  · intro b hb
    rw [lookupInv_updateInv, if_neg (fun hh => hb hh.symm)]

/-- C8 witness: convert with `to_asset = None`. -/
theorem convert_missing_target_witness :
    ((Portfolio.new "SEK").add_transaction "convert" "LTC" 5 1 0 "SEK" none none).1
        = some LedgerError.missingConversionTarget :=
  (convert_missing_target (Portfolio.new "SEK") "LTC" 5 1 0 "SEK" none none (Or.inl rfl)).1

/-- C8 counterexample: a convert whose `to_asset` equals the source
asset is not rejected — the call succeeds, refuting the claimed
`MissingConversionTarget` failure for `to_asset = asset`. -/
theorem convert_self_target_accepted_cex :
    ((Portfolio.mk [("BTC", Investment.mk 1 1 [])] "SEK" []).add_transaction
        "convert" "BTC" 1 1 0 "SEK" none (some "BTC")).1 = none := by
  simp [Portfolio.add_transaction, Portfolio.handle_conversion, Investment.avg_price,
    Investment.sell, Investment.buy, Investment.new, lookupInv, updateInv]

/-! ### Conversion success characterization -/

theorem handle_conversion_ok_conditions (p : Portfolio) (fa ta : String)
    (q pr fe : ℚ) (ts : Option ℤ) (fi : Investment)
    (hl : lookupInv p.investments fa = some fi)
    (h : (p.handle_conversion fa ta q pr fe ts).1 = none) :
    fi.avg_price ≠ 0 ∧ (pr * q + fe) / fi.avg_price ≤ fi.quantity := by
  by_cases ha : fi.avg_price = 0
  · exfalso; simp [Portfolio.handle_conversion, hl, ha] at h
  · by_cases hq : (pr * q + fe) / fi.avg_price > fi.quantity
    · exfalso; simp [Portfolio.handle_conversion, hl, ha, hq] at h
    · exact ⟨ha, not_lt.mp hq⟩

theorem handle_conversion_ok_eq (p : Portfolio) (fa ta : String)
    (q pr fe : ℚ) (ts : Option ℤ) (fi : Investment)
    (q2s : ℚ) (fi2 : Investment) (linv2 : List (String × Investment))
    (to_inv : Investment) (linv3 : List (String × Investment))
    (hl : lookupInv p.investments fa = some fi)
    (ha : fi.avg_price ≠ 0)
    (hq2s : q2s = (pr * q + fe) / fi.avg_price)
    (hq : q2s ≤ fi.quantity)
    (hfi2 : fi2 = { quantity := fi.quantity - q2s
                    total_cost := fi.total_cost - fi.avg_price * q2s
                    realized_profit_loss := fi.realized_profit_loss
                      ++ [fi.avg_price * q2s - fe - fi.avg_price * q2s] })
    (hl2 : linv2 = updateInv p.investments fa fi2)
    (hto : to_inv = (lookupInv linv2 ta).getD Investment.new)
    (hl3 : linv3 = updateInv linv2 ta (to_inv.buy pr q 0)) :
    p.handle_conversion fa ta q pr fe ts =
      (none,
       { investments := linv3
         base_currency := p.base_currency
         transactions := p.transactions ++
           [{ timestamp := ts, action := "sell", asset := fa, to_asset := none
              price := ((lookupInv linv3 fa).getD Investment.new).avg_price
              quantity := q2s, fee := fe, transaction_currency := p.base_currency },
            { timestamp := ts, action := "buy", asset := ta, to_asset := none
              price := pr, quantity := q, fee := 0
              transaction_currency := p.base_currency }] }) := by
  subst hq2s hfi2 hl2 hto hl3
  simp [Portfolio.handle_conversion, hl, ha, not_lt.mpr hq, Investment.sell]

/-! ### C2 -/

/-- C2 (amended): a successful convert appends exactly THREE records
to the audit trail, not two: the sell record for the source leg, the
buy record for the destination leg, and then the generic `convert`
transaction record that `add_transaction` appends for every successful
call.  The sell and buy leg records (and the convert record) all carry
the timestamp of the convert request. -/
theorem convert_appends_three_records (p : Portfolio) (asset ta : String)
    (price qty fee : ℚ) (tc : String) (ts : Option ℤ)
    (hok : (p.add_transaction "convert" asset price qty fee tc ts (some ta)).1 = none) :
    ∃ sp sq,
      (p.add_transaction "convert" asset price qty fee tc ts (some ta)).2.transactions
        = p.transactions ++
          [{ timestamp := ts, action := "sell", asset := asset, to_asset := none
             price := sp, quantity := sq, fee := fee
             transaction_currency := p.base_currency },
           { timestamp := ts, action := "buy", asset := ta, to_asset := none
             price := price, quantity := qty, fee := 0
             transaction_currency := p.base_currency },
           { timestamp := ts, action := "convert", asset := asset, to_asset := some ta
             price := price, quantity := qty, fee := fee
             transaction_currency := tc }] := by
  by_cases hta : ta = ""
  · exfalso; rw [hta] at hok; simp [Portfolio.add_transaction] at hok
  · have hl1 : lookupInv (updateInv p.investments asset ((lookupInv p.investments asset).getD Investment.new)) asset = some ((lookupInv p.investments asset).getD Investment.new) := by
      rw [lookupInv_updateInv, if_pos rfl]
    have hnone : (({ p with investments := updateInv p.investments asset ((lookupInv p.investments asset).getD Investment.new) } : Portfolio).handle_conversion asset ta qty price fee ts).1 = none := by
      rcases hcy : ({ p with investments := updateInv p.investments asset ((lookupInv p.investments asset).getD Investment.new) } : Portfolio).handle_conversion asset ta qty price fee ts with ⟨oe, p2⟩
      rcases oe with _ | e2
      · rfl
      · exfalso; simp [Portfolio.add_transaction, hta, hcy] at hok
    obtain ⟨ha, hq⟩ := handle_conversion_ok_conditions
      ({ p with investments := updateInv p.investments asset ((lookupInv p.investments asset).getD Investment.new) } : Portfolio)
      asset ta qty price fee ts ((lookupInv p.investments asset).getD Investment.new) hl1 hnone
    set inv0 := (lookupInv p.investments asset).getD Investment.new with hinv0
    set q2s : ℚ := (price * qty + fee) / inv0.avg_price with hq2s
    set fi2 : Investment :=
      { quantity := inv0.quantity - q2s
        total_cost := inv0.total_cost - inv0.avg_price * q2s
        realized_profit_loss := inv0.realized_profit_loss
          ++ [inv0.avg_price * q2s - fee - inv0.avg_price * q2s] } with hfi2
    set linv2 := updateInv (updateInv p.investments asset inv0) asset fi2 with hlinv2
    set to_inv := (lookupInv linv2 ta).getD Investment.new with hto
    set linv3 := updateInv linv2 ta (to_inv.buy price qty 0) with hlinv3
    have heq := handle_conversion_ok_eq
      ({ p with investments := updateInv p.investments asset inv0 } : Portfolio)
      asset ta qty price fee ts inv0 q2s fi2 linv2 to_inv linv3
      hl1 ha hq2s hq hfi2 hlinv2 hto hlinv3
    have h2 : (p.add_transaction "convert" asset price qty fee tc ts (some ta)).2
        = { investments := linv3
            base_currency := p.base_currency
            transactions := (p.transactions ++
              [{ timestamp := ts, action := "sell", asset := asset, to_asset := none
                 price := ((lookupInv linv3 asset).getD Investment.new).avg_price
                 quantity := q2s, fee := fee, transaction_currency := p.base_currency },
               { timestamp := ts, action := "buy", asset := ta, to_asset := none
                 price := price, quantity := qty, fee := 0
                 transaction_currency := p.base_currency }]) ++
              [{ timestamp := ts, action := "convert", asset := asset, to_asset := some ta
                 price := price, quantity := qty, fee := fee
                 transaction_currency := tc }] } := by
      simp [Portfolio.add_transaction, hta, heq]
    refine ⟨((lookupInv linv3 asset).getD Investment.new).avg_price, q2s, ?_⟩
    rw [h2]
    simp

/-- C2 witness: the spec's conversion scenario (1 BTC at cost 1000,
convert 2 ETH at price 300, no fee) instantiating
`convert_appends_three_records`. -/
theorem convert_appends_three_records_witness :
    ∃ sp sq,
      ((Portfolio.mk [("BTC", Investment.mk 1 1000 [])] "SEK" []).add_transaction
          "convert" "BTC" 300 2 0 "SEK" none (some "ETH")).2.transactions
        = (Portfolio.mk [("BTC", Investment.mk 1 1000 [])] "SEK" []).transactions ++
          [{ timestamp := none, action := "sell", asset := "BTC", to_asset := none
             price := sp, quantity := sq, fee := 0
             transaction_currency := (Portfolio.mk [("BTC", Investment.mk 1 1000 [])] "SEK" []).base_currency },
           { timestamp := none, action := "buy", asset := "ETH", to_asset := none
             price := 300, quantity := 2, fee := 0
             transaction_currency := (Portfolio.mk [("BTC", Investment.mk 1 1000 [])] "SEK" []).base_currency },
           { timestamp := none, action := "convert", asset := "BTC", to_asset := some "ETH"
             price := 300, quantity := 2, fee := 0
             transaction_currency := "SEK" }] :=
  convert_appends_three_records (Portfolio.mk [("BTC", Investment.mk 1 1000 [])] "SEK" [])
    "BTC" "ETH" 300 2 0 "SEK" none
    (by simp [Portfolio.add_transaction, Portfolio.handle_conversion, Investment.avg_price,
        Investment.sell, Investment.buy, Investment.new, lookupInv, updateInv]
        norm_num)

/-! ### C4 -/

/-- C4: when a convert succeeds, the realized profit/loss appended to
the source position by the synthesized source-leg sell is exactly
`-fee` (so exactly 0 when the fee is 0), independent of destination
price, destination quantity and the source position's holdings. -/
theorem conversion_fee_neutral (p : Portfolio) (asset ta : String)
    (price qty fee : ℚ) (tc : String) (ts : Option ℤ)
    (hok : (p.add_transaction "convert" asset price qty fee tc ts (some ta)).1 = none) :
    ∃ inv2,
      lookupInv (p.add_transaction "convert" asset price qty fee tc ts (some ta)).2.investments asset
        = some inv2
      ∧ inv2.realized_profit_loss
          = ((lookupInv p.investments asset).getD Investment.new).realized_profit_loss
              ++ [-fee] := by
  by_cases hta : ta = ""
  · exfalso; rw [hta] at hok; simp [Portfolio.add_transaction] at hok
  · have hl1 : lookupInv (updateInv p.investments asset ((lookupInv p.investments asset).getD Investment.new)) asset = some ((lookupInv p.investments asset).getD Investment.new) := by
      rw [lookupInv_updateInv, if_pos rfl]
    have hnone : (({ p with investments := updateInv p.investments asset ((lookupInv p.investments asset).getD Investment.new) } : Portfolio).handle_conversion asset ta qty price fee ts).1 = none := by
      rcases hcy : ({ p with investments := updateInv p.investments asset ((lookupInv p.investments asset).getD Investment.new) } : Portfolio).handle_conversion asset ta qty price fee ts with ⟨oe, p2⟩
      rcases oe with _ | e2
      · rfl
      · exfalso; simp [Portfolio.add_transaction, hta, hcy] at hok
    obtain ⟨ha, hq⟩ := handle_conversion_ok_conditions
      ({ p with investments := updateInv p.investments asset ((lookupInv p.investments asset).getD Investment.new) } : Portfolio)
      asset ta qty price fee ts ((lookupInv p.investments asset).getD Investment.new) hl1 hnone
    set inv0 := (lookupInv p.investments asset).getD Investment.new with hinv0
    set q2s : ℚ := (price * qty + fee) / inv0.avg_price with hq2s
    set fi2 : Investment :=
      { quantity := inv0.quantity - q2s
        total_cost := inv0.total_cost - inv0.avg_price * q2s
        realized_profit_loss := inv0.realized_profit_loss
          ++ [inv0.avg_price * q2s - fee - inv0.avg_price * q2s] } with hfi2
    set linv2 := updateInv (updateInv p.investments asset inv0) asset fi2 with hlinv2
    set to_inv := (lookupInv linv2 ta).getD Investment.new with hto
    set linv3 := updateInv linv2 ta (to_inv.buy price qty 0) with hlinv3
    have heq := handle_conversion_ok_eq
      ({ p with investments := updateInv p.investments asset inv0 } : Portfolio)
      asset ta qty price fee ts inv0 q2s fi2 linv2 to_inv linv3
      hl1 ha hq2s hq hfi2 hlinv2 hto hlinv3
    have h2 : (p.add_transaction "convert" asset price qty fee tc ts (some ta)).2.investments
        = linv3 := by
      simp [Portfolio.add_transaction, hta, heq]
    have hlk2 : lookupInv linv2 asset = some fi2 := by
      rw [hlinv2, updateInv_updateInv, lookupInv_updateInv, if_pos rfl]
    have hpl : inv0.avg_price * q2s - fee - inv0.avg_price * q2s = -fee := by ring
    have hfi2r : fi2.realized_profit_loss = inv0.realized_profit_loss ++ [-fee] := by
      rw [hfi2]
      simp [hpl]
    by_cases hsame : ta = asset
    · have hlk3 : lookupInv linv3 asset = some (to_inv.buy price qty 0) := by
        rw [hlinv3, lookupInv_updateInv, if_pos hsame]
      have hto2 : to_inv = fi2 := by
        rw [hto, hsame, hlk2]
        rfl
      refine ⟨to_inv.buy price qty 0, ?_, ?_⟩
      · rw [h2]; exact hlk3
      · have hbr : (to_inv.buy price qty 0).realized_profit_loss = to_inv.realized_profit_loss := rfl
        rw [hbr, hto2, hfi2r]
    · have hlk3 : lookupInv linv3 asset = some fi2 := by
        rw [hlinv3, lookupInv_updateInv, if_neg hsame, hlk2]
      refine ⟨fi2, ?_, hfi2r⟩
      rw [h2]; exact hlk3

/-- C4 witness: converting with fee 7 realizes exactly -7 on the
source leg. -/
theorem conversion_fee_neutral_witness :
    ∃ inv2,
      lookupInv ((Portfolio.mk [("BTC", Investment.mk 2 1000 [])] "SEK" []).add_transaction
          "convert" "BTC" 100 1 7 "SEK" none (some "ETH")).2.investments "BTC"
        = some inv2
      ∧ inv2.realized_profit_loss
          = ((lookupInv (Portfolio.mk [("BTC", Investment.mk 2 1000 [])] "SEK" []).investments
                "BTC").getD Investment.new).realized_profit_loss ++ [-7] :=
  conversion_fee_neutral (Portfolio.mk [("BTC", Investment.mk 2 1000 [])] "SEK" [])
    "BTC" "ETH" 100 1 7 "SEK" none
    (by simp [Portfolio.add_transaction, Portfolio.handle_conversion, Investment.avg_price,
        Investment.sell, Investment.buy, Investment.new, lookupInv, updateInv]
        norm_num)

/-! ### C10 -/

/-- C10 (amended): for conversions whose destination asset differs
from the source, the price field of the sell-leg audit record is the
source position's average price read AFTER the synthesized sell has
mutated the position (the final state's value, not the pre-sale
average used for the sale); consequently a conversion that fully
liquidates the source position records price 0 on its sell leg. -/
theorem conversion_sell_record_price (p : Portfolio) (asset ta : String)
    (price qty fee : ℚ) (tc : String) (ts : Option ℤ)
    (hne : ta ≠ asset)
    (hok : (p.add_transaction "convert" asset price qty fee tc ts (some ta)).1 = none) :
    ∃ inv2 sq,
      lookupInv (p.add_transaction "convert" asset price qty fee tc ts (some ta)).2.investments asset
        = some inv2
      ∧ inv2.quantity = ((lookupInv p.investments asset).getD Investment.new).quantity - sq
      ∧ (p.add_transaction "convert" asset price qty fee tc ts (some ta)).2.transactions
          = p.transactions ++
            [{ timestamp := ts, action := "sell", asset := asset, to_asset := none
               price := inv2.avg_price, quantity := sq, fee := fee
               transaction_currency := p.base_currency },
             { timestamp := ts, action := "buy", asset := ta, to_asset := none
               price := price, quantity := qty, fee := 0
               transaction_currency := p.base_currency },
             { timestamp := ts, action := "convert", asset := asset, to_asset := some ta
               price := price, quantity := qty, fee := fee
               transaction_currency := tc }]
      ∧ (sq = ((lookupInv p.investments asset).getD Investment.new).quantity
          → inv2.avg_price = 0) := by
  by_cases hta : ta = ""
  · exfalso; rw [hta] at hok; simp [Portfolio.add_transaction] at hok
  · have hl1 : lookupInv (updateInv p.investments asset ((lookupInv p.investments asset).getD Investment.new)) asset = some ((lookupInv p.investments asset).getD Investment.new) := by
      rw [lookupInv_updateInv, if_pos rfl]
    have hnone : (({ p with investments := updateInv p.investments asset ((lookupInv p.investments asset).getD Investment.new) } : Portfolio).handle_conversion asset ta qty price fee ts).1 = none := by
      rcases hcy : ({ p with investments := updateInv p.investments asset ((lookupInv p.investments asset).getD Investment.new) } : Portfolio).handle_conversion asset ta qty price fee ts with ⟨oe, p2⟩
      rcases oe with _ | e2
      · rfl
      · exfalso; simp [Portfolio.add_transaction, hta, hcy] at hok
    obtain ⟨ha, hq⟩ := handle_conversion_ok_conditions
      ({ p with investments := updateInv p.investments asset ((lookupInv p.investments asset).getD Investment.new) } : Portfolio)
      asset ta qty price fee ts ((lookupInv p.investments asset).getD Investment.new) hl1 hnone
    set inv0 := (lookupInv p.investments asset).getD Investment.new with hinv0
    set q2s : ℚ := (price * qty + fee) / inv0.avg_price with hq2s
    set fi2 : Investment :=
      { quantity := inv0.quantity - q2s
        total_cost := inv0.total_cost - inv0.avg_price * q2s
        realized_profit_loss := inv0.realized_profit_loss
          ++ [inv0.avg_price * q2s - fee - inv0.avg_price * q2s] } with hfi2
    set linv2 := updateInv (updateInv p.investments asset inv0) asset fi2 with hlinv2
    set to_inv := (lookupInv linv2 ta).getD Investment.new with hto
    set linv3 := updateInv linv2 ta (to_inv.buy price qty 0) with hlinv3
    have heq := handle_conversion_ok_eq
      ({ p with investments := updateInv p.investments asset inv0 } : Portfolio)
      asset ta qty price fee ts inv0 q2s fi2 linv2 to_inv linv3
      hl1 ha hq2s hq hfi2 hlinv2 hto hlinv3
    have hlk2 : lookupInv linv2 asset = some fi2 := by
      rw [hlinv2, updateInv_updateInv, lookupInv_updateInv, if_pos rfl]
    have hlk3 : lookupInv linv3 asset = some fi2 := by
      rw [hlinv3, lookupInv_updateInv, if_neg hne, hlk2]
    have h2 : (p.add_transaction "convert" asset price qty fee tc ts (some ta)).2
        = { investments := linv3
            base_currency := p.base_currency
            transactions := (p.transactions ++
              [{ timestamp := ts, action := "sell", asset := asset, to_asset := none
                 price := fi2.avg_price
                 quantity := q2s, fee := fee, transaction_currency := p.base_currency },
               { timestamp := ts, action := "buy", asset := ta, to_asset := none
                 price := price, quantity := qty, fee := 0
                 transaction_currency := p.base_currency }]) ++
              [{ timestamp := ts, action := "convert", asset := asset, to_asset := some ta
                 price := price, quantity := qty, fee := fee
                 transaction_currency := tc }] } := by
      simp [Portfolio.add_transaction, hta, heq, hlk3]
    refine ⟨fi2, q2s, ?_, ?_, ?_, ?_⟩
    · rw [h2]; exact hlk3
    · rw [hfi2]
    · rw [h2]; simp
    · intro hfull
      have hq0 : fi2.quantity = 0 := by
        rw [hfi2]
        simp [hfull]
      rw [Investment.avg_price, if_pos hq0]

/-- C10 witness: a successful BTC to ETH conversion instantiating
`conversion_sell_record_price`. -/
theorem conversion_sell_record_price_witness :
    ∃ inv2 sq,
      lookupInv ((Portfolio.mk [("BTC", Investment.mk 1 1000 [])] "SEK" []).add_transaction
          "convert" "BTC" 500 1 0 "SEK" none (some "ETH")).2.investments "BTC"
        = some inv2
      ∧ inv2.quantity = ((lookupInv (Portfolio.mk [("BTC", Investment.mk 1 1000 [])] "SEK" []).investments "BTC").getD Investment.new).quantity - sq
      ∧ ((Portfolio.mk [("BTC", Investment.mk 1 1000 [])] "SEK" []).add_transaction
          "convert" "BTC" 500 1 0 "SEK" none (some "ETH")).2.transactions
          = (Portfolio.mk [("BTC", Investment.mk 1 1000 [])] "SEK" []).transactions ++
            [{ timestamp := none, action := "sell", asset := "BTC", to_asset := none
               price := inv2.avg_price, quantity := sq, fee := 0
               transaction_currency := (Portfolio.mk [("BTC", Investment.mk 1 1000 [])] "SEK" []).base_currency },
             { timestamp := none, action := "buy", asset := "ETH", to_asset := none
               price := 500, quantity := 1, fee := 0
               transaction_currency := (Portfolio.mk [("BTC", Investment.mk 1 1000 [])] "SEK" []).base_currency },
             { timestamp := none, action := "convert", asset := "BTC", to_asset := some "ETH"
               price := 500, quantity := 1, fee := 0
               transaction_currency := "SEK" }]
      ∧ (sq = ((lookupInv (Portfolio.mk [("BTC", Investment.mk 1 1000 [])] "SEK" []).investments "BTC").getD Investment.new).quantity
          → inv2.avg_price = 0) :=
  conversion_sell_record_price (Portfolio.mk [("BTC", Investment.mk 1 1000 [])] "SEK" [])
    "BTC" "ETH" 500 1 0 "SEK" none (by simp)
    (by simp [Portfolio.add_transaction, Portfolio.handle_conversion, Investment.avg_price,
        Investment.sell, Investment.buy, Investment.new, lookupInv, updateInv]
        norm_num)

/-- C10 counterexample: a self-conversion (destination equal to the
source) that fully liquidates the source position.  The appended
sell-leg record carries price 1000, not 0: the record's price is read
after the destination buy has refilled the very same position, so the
claim's universal statement fails at this input. -/
theorem conversion_sell_record_price_cex :
    (Portfolio.mk [("BTC", Investment.mk 1 1000 [])] "SEK" []).add_transaction
        "convert" "BTC" 1000 1 0 "SEK" none (some "BTC")
      = (none,
         Portfolio.mk [("BTC", Investment.mk 1 1000 [0])] "SEK"
           [{ timestamp := none, action := "sell", asset := "BTC", to_asset := none
              price := 1000, quantity := 1, fee := 0, transaction_currency := "SEK" },
            { timestamp := none, action := "buy", asset := "BTC", to_asset := none
              price := 1000, quantity := 1, fee := 0, transaction_currency := "SEK" },
            { timestamp := none, action := "convert", asset := "BTC", to_asset := some "BTC"
              price := 1000, quantity := 1, fee := 0, transaction_currency := "SEK" }]) := by
  simp [Portfolio.add_transaction, Portfolio.handle_conversion, Investment.avg_price,
    Investment.sell, Investment.buy, Investment.new, lookupInv, updateInv]

/-! ### C9: non-negativity invariant -/

theorem new_nonneg : Investment.new.Nonneg := by
  constructor <;> simp [Investment.new]

theorem buy_nonneg (inv : Investment) (price qty fee : ℚ) (h : inv.Nonneg)
    (hp : 0 ≤ price) (hq : 0 ≤ qty) (hf : 0 ≤ fee) : (inv.buy price qty fee).Nonneg := by
  constructor
  · show 0 ≤ inv.quantity + qty
    exact add_nonneg h.1 hq
  · show 0 ≤ inv.total_cost + (price * qty + fee)
    exact add_nonneg h.2 (add_nonneg (mul_nonneg hp hq) hf)

theorem avg_price_nonneg (inv : Investment) (h : inv.Nonneg) : 0 ≤ inv.avg_price := by
  rw [Investment.avg_price]
  split
  · exact le_refl 0
  · exact div_nonneg h.2 h.1

theorem cost_removal_le (fi : Investment) (hfi : fi.Nonneg) (x : ℚ)
    (hx : x ≤ fi.quantity) : fi.avg_price * x ≤ fi.total_cost := by
  rw [Investment.avg_price]
  by_cases h0 : fi.quantity = 0
  · rw [if_pos h0, zero_mul]
    exact hfi.2
  · rw [if_neg h0]
    have havg : 0 ≤ fi.total_cost / fi.quantity := div_nonneg hfi.2 hfi.1
    calc fi.total_cost / fi.quantity * x
        ≤ fi.total_cost / fi.quantity * fi.quantity := mul_le_mul_of_nonneg_left hx havg
      _ = fi.total_cost := div_mul_cancel₀ fi.total_cost h0

theorem sell_ok_nonneg (inv : Investment) (price qty fee pl : ℚ) (inv2 : Investment)
    (h : inv.Nonneg) (_h0 : 0 ≤ qty)
    (heq : inv.sell price qty fee = .ok (pl, inv2)) : inv2.Nonneg := by
  by_cases h1 : qty > inv.quantity
  · rw [Investment.sell, if_pos h1] at heq
    exact absurd heq (by simp)
  · rw [Investment.sell, if_neg h1] at heq
    simp only [Except.ok.injEq, Prod.mk.injEq] at heq
    obtain ⟨hpl, hinv⟩ := heq
    subst hinv
    constructor
    · show 0 ≤ inv.quantity - qty
      exact sub_nonneg.mpr (not_lt.mp h1)
    · show 0 ≤ inv.total_cost - inv.avg_price * qty
      exact sub_nonneg.mpr (cost_removal_le inv h qty (not_lt.mp h1))

theorem nonneg_updateInv (l : List (String × Investment))
    (h : ∀ a v, lookupInv l a = some v → v.Nonneg)
    (b : String) (w : Investment) (hw : w.Nonneg) :
    ∀ a v, lookupInv (updateInv l b w) a = some v → v.Nonneg := by
  intro a v hv
  rw [lookupInv_updateInv] at hv
  by_cases hab : b = a
  · rw [if_pos hab] at hv
    cases hv
    exact hw
  · rw [if_neg hab] at hv
    exact h a v hv

theorem lookup_getD_nonneg (l : List (String × Investment))
    (h : ∀ a v, lookupInv l a = some v → v.Nonneg) (a : String) :
    ((lookupInv l a).getD Investment.new).Nonneg := by
  rcases hl : lookupInv l a with _ | v
  · exact new_nonneg
  · exact h a v hl

theorem handle_conversion_preserves_nonneg (p : Portfolio) (fa ta : String)
    (q pr fe : ℚ) (ts : Option ℤ)
    (hq : 0 ≤ q) (hp : 0 ≤ pr) (_hf : 0 ≤ fe)
    (h : p.Nonneg) : ((p.handle_conversion fa ta q pr fe ts).2).Nonneg := by
  rcases hl : lookupInv p.investments fa with _ | fi
  · have hkey : (p.handle_conversion fa ta q pr fe ts).2 = p := by
      simp [Portfolio.handle_conversion, hl]
    rw [hkey]; exact h
  · have hfi : fi.Nonneg := h fa fi hl
    by_cases ha : fi.avg_price = 0
    · have hkey : (p.handle_conversion fa ta q pr fe ts).2 = p := by
        simp [Portfolio.handle_conversion, hl, ha]
      rw [hkey]; exact h
    · by_cases hqs : (pr * q + fe) / fi.avg_price > fi.quantity
      · have hkey : (p.handle_conversion fa ta q pr fe ts).2 = p := by
          simp [Portfolio.handle_conversion, hl, ha, hqs]
        rw [hkey]; exact h
      · have hle : (pr * q + fe) / fi.avg_price ≤ fi.quantity := not_lt.mp hqs
        have heq := handle_conversion_ok_eq p fa ta q pr fe ts fi
          ((pr * q + fe) / fi.avg_price) _ _ _ _ hl ha rfl hle rfl rfl rfl rfl
        rw [heq]
        intro b w hw
        have hfi2 : (Investment.mk (fi.quantity - (pr * q + fe) / fi.avg_price)
            (fi.total_cost - fi.avg_price * ((pr * q + fe) / fi.avg_price))
            (fi.realized_profit_loss
              ++ [fi.avg_price * ((pr * q + fe) / fi.avg_price) - fe
                  - fi.avg_price * ((pr * q + fe) / fi.avg_price)])).Nonneg := by
          constructor
          · show 0 ≤ fi.quantity - (pr * q + fe) / fi.avg_price
            exact sub_nonneg.mpr hle
          · show 0 ≤ fi.total_cost - fi.avg_price * ((pr * q + fe) / fi.avg_price)
            exact sub_nonneg.mpr (cost_removal_le fi hfi _ hle)
        have h2 := nonneg_updateInv p.investments h fa _ hfi2
        have h3 := nonneg_updateInv _ h2 ta _
          (buy_nonneg _ pr q 0 (lookup_getD_nonneg _ h2 ta) hp hq (le_refl 0))
        exact h3 b w hw

theorem applyTx_preserves_nonneg (p : Portfolio) (t : TxInput)
    (hv : validTx t) (h : p.Nonneg) : ((p.applyTx t).2).Nonneg := by
  obtain ⟨hvq, hvp, hvf⟩ := hv
  have hinv0 : ((lookupInv p.investments t.asset).getD Investment.new).Nonneg :=
    lookup_getD_nonneg p.investments h t.asset
  have h1 := nonneg_updateInv p.investments h t.asset _ hinv0
  by_cases hb : t.action = "buy"
  · have hkey : ((p.applyTx t).2).investments
        = updateInv (updateInv p.investments t.asset
            ((lookupInv p.investments t.asset).getD Investment.new)) t.asset
            (((lookupInv p.investments t.asset).getD Investment.new).buy t.price t.quantity t.fee) := by
      simp [Portfolio.applyTx, Portfolio.add_transaction, hb]
    intro a v hv2
    rw [hkey] at hv2
    exact nonneg_updateInv _ h1 t.asset _
      (buy_nonneg _ t.price t.quantity t.fee hinv0 hvp hvq.le hvf) a v hv2
  · by_cases hs : t.action = "sell"
    · rcases hsell : ((lookupInv p.investments t.asset).getD Investment.new).sell
          t.price t.quantity t.fee with e2 | plinv2
      · have hkey : ((p.applyTx t).2).investments
            = updateInv p.investments t.asset
                ((lookupInv p.investments t.asset).getD Investment.new) := by
          simp [Portfolio.applyTx, Portfolio.add_transaction, hb, hs, hsell]
        intro a v hv2
        rw [hkey] at hv2
        exact h1 a v hv2
      · obtain ⟨pl, inv2⟩ := plinv2
        have hkey : ((p.applyTx t).2).investments
            = updateInv (updateInv p.investments t.asset
                ((lookupInv p.investments t.asset).getD Investment.new)) t.asset inv2 := by
          simp [Portfolio.applyTx, Portfolio.add_transaction, hb, hs, hsell]
        intro a v hv2
        rw [hkey] at hv2
        exact nonneg_updateInv _ h1 t.asset inv2
          (sell_ok_nonneg _ t.price t.quantity t.fee pl inv2 hinv0 hvq.le hsell) a v hv2
    · by_cases hd : t.action = "deposit"
      · have hkey : ((p.applyTx t).2).investments
            = updateInv (updateInv p.investments t.asset
                ((lookupInv p.investments t.asset).getD Investment.new)) t.asset
                (((lookupInv p.investments t.asset).getD Investment.new).buy 0 t.quantity 0) := by
          simp [Portfolio.applyTx, Portfolio.add_transaction, hb, hs, hd]
        intro a v hv2
        rw [hkey] at hv2
        exact nonneg_updateInv _ h1 t.asset _
          (buy_nonneg _ 0 t.quantity 0 hinv0 (le_refl 0) hvq.le (le_refl 0)) a v hv2
      · by_cases hc : t.action = "convert"
        · have hP1 : Portfolio.Nonneg ({ p with investments := updateInv p.investments t.asset ((lookupInv p.investments t.asset).getD Investment.new) } : Portfolio) := by
            intro a v hv2
            exact h1 a v hv2
          rcases hto : t.to_asset with _ | ta
          · have hkey : ((p.applyTx t).2).investments
                = updateInv p.investments t.asset
                    ((lookupInv p.investments t.asset).getD Investment.new) := by
              simp [Portfolio.applyTx, Portfolio.add_transaction, hb, hs, hd, hc, hto]
            intro a v hv2
            rw [hkey] at hv2
            exact h1 a v hv2
          · by_cases hta : ta = ""
            · have hkey : ((p.applyTx t).2).investments
                  = updateInv p.investments t.asset
                      ((lookupInv p.investments t.asset).getD Investment.new) := by
                simp [Portfolio.applyTx, Portfolio.add_transaction, hb, hs, hd, hc, hto, hta]
              intro a v hv2
              rw [hkey] at hv2
              exact h1 a v hv2
            · have hstep := handle_conversion_preserves_nonneg
                ({ p with investments := updateInv p.investments t.asset ((lookupInv p.investments t.asset).getD Investment.new) } : Portfolio)
                t.asset ta t.quantity t.price t.fee t.timestamp hvq.le hvp hvf hP1
              rcases hcy : ({ p with investments := updateInv p.investments t.asset ((lookupInv p.investments t.asset).getD Investment.new) } : Portfolio).handle_conversion t.asset ta t.quantity t.price t.fee t.timestamp with ⟨oe, p2⟩
              have hp2 : p2.Nonneg := by
                rw [hcy] at hstep
                exact hstep
              rcases oe with _ | e2
              · have hkey : ((p.applyTx t).2).investments = p2.investments := by
                  simp [Portfolio.applyTx, Portfolio.add_transaction, hb, hs, hd, hc, hto, hta, hcy]
                intro a v hv2
                rw [hkey] at hv2
                exact hp2 a v hv2
              · have hkey : ((p.applyTx t).2).investments = p2.investments := by
                  simp [Portfolio.applyTx, Portfolio.add_transaction, hb, hs, hd, hc, hto, hta, hcy]
                intro a v hv2
                rw [hkey] at hv2
                exact hp2 a v hv2
        · have hkey : ((p.applyTx t).2).investments
              = updateInv p.investments t.asset
                  ((lookupInv p.investments t.asset).getD Investment.new) := by
            simp [Portfolio.applyTx, Portfolio.add_transaction, hb, hs, hd, hc]
          intro a v hv2
          rw [hkey] at hv2
          exact h1 a v hv2

theorem applyAll_nonneg (txs : List TxInput) :
    ∀ (p : Portfolio), p.Nonneg → (∀ t ∈ txs, validTx t) → (p.applyAll txs).Nonneg := by
  induction txs with
  | nil => intro p h _; exact h
  | cons t ts ih =>
    intro p h hv
    exact ih _ (applyTx_preserves_nonneg p t (hv t (by simp)) h)
      (fun u hu => hv u (by simp [hu]))

/-- C9: for every sequence of ledger calls whose inputs satisfy the
preconditions (strictly positive quantity, non-negative price and
fee), every stored position's quantity is non-negative after every
call, including after failed calls (a call is the last element of its
own prefix of the sequence, and the fold keeps the post-call state of
failing calls too). -/
theorem quantity_nonneg_invariant (base : String) (txs : List TxInput)
    (hv : ∀ t ∈ txs, validTx t) (a : String) (inv : Investment)
    (hl : lookupInv ((Portfolio.new base).applyAll txs).investments a = some inv) :
    0 ≤ inv.quantity := by
  have hbase : (Portfolio.new base).Nonneg := by
    intro b w hw
    simp [Portfolio.new, lookupInv] at hw
  exact (applyAll_nonneg txs (Portfolio.new base) hbase hv a inv hl).1

/-- C9 witness: one valid buy, with the invariant instantiated at the
resulting position. -/
theorem quantity_nonneg_invariant_witness :
    (∀ t ∈ [TxInput.mk "buy" "BTC" 100 1 0 "SEK" none none], validTx t)
    ∧ lookupInv ((Portfolio.new "SEK").applyAll
          [TxInput.mk "buy" "BTC" 100 1 0 "SEK" none none]).investments "BTC"
        = some (Investment.mk 1 100 [])
    ∧ 0 ≤ (Investment.mk 1 100 []).quantity :=
  ⟨by
    intro t ht
    simp at ht
    subst ht
    exact ⟨by norm_num, by norm_num, by norm_num⟩,
   by
    simp [Portfolio.applyAll, Portfolio.applyTx, Portfolio.add_transaction, Portfolio.new,
      Investment.buy, Investment.new, lookupInv, updateInv],
   quantity_nonneg_invariant "SEK" [TxInput.mk "buy" "BTC" 100 1 0 "SEK" none none]
     (by
       intro t ht
       simp at ht
       subst ht
       exact ⟨by norm_num, by norm_num, by norm_num⟩)
     "BTC" (Investment.mk 1 100 [])
     (by
       simp [Portfolio.applyAll, Portfolio.applyTx, Portfolio.add_transaction, Portfolio.new,
         Investment.buy, Investment.new, lookupInv, updateInv])⟩

/-- C2 counterexample: a single successful convert on a ledger with an
empty audit trail leaves THREE records in the trail, not the two the
claim states: `handle_conversion` appends the sell and buy leg records
and then `add_transaction` appends its own generic record for the
convert call. -/
theorem convert_two_records_cex :
    ((Portfolio.mk [("BTC", Investment.mk 1 1000 [])] "SEK" []).add_transaction
        "convert" "BTC" 300 2 0 "SEK" none (some "ETH")).1 = none
    ∧ ((Portfolio.mk [("BTC", Investment.mk 1 1000 [])] "SEK" []).add_transaction
        "convert" "BTC" 300 2 0 "SEK" none (some "ETH")).2.transactions.length = 3 := by
  constructor <;>
    simp [Portfolio.add_transaction, Portfolio.handle_conversion, Investment.avg_price,
      Investment.sell, Investment.buy, Investment.new, lookupInv, updateInv] <;>
    norm_num
